import Mathlib

/-!
Verification of `src/slurmd/common/run_script.c` (script discovery and
supervised execution of prolog/epilog scripts).

The C code is embedded shallowly:

* `run_one_script`'s supervision loop (`waitpid`/`sleep`/`killpg`) is a
  function over a finite trace of wait outcomes supplied by the operating
  system (`WaitRes`); the observable side effects (fork, sleep(1), the two
  `killpg` call sites, a successful reap, the wait-error log) are recorded
  as a list of `Act`.
* `max_wait` is the C `int` argument modelled as `Int` (the values the
  claims exercise stay far from the 32-bit boundaries).
* `glob(3)`'s outcome is a value of `GlobRes`; `_script_list_create` is a
  function of that outcome.
* `list_push` / `list_next` (from `src/common/list.c`, which is not part of
  the sources here) are modelled from the spec: an ordered sequence with
  insertion order preserved, iterated once front-to-back.
* `error()` (from `src/common/log.c`, also not part of the sources) is
  modelled from the spec and the file's own header comment: it logs and
  returns the failure code -1.
-/

namespace RunScript

/-- One outcome of a `waitpid(cpid, &status, opt)` call as seen by the
supervision loop: the child was reaped with a raw wait `status` (rc > 0),
the child is still running (rc == 0, only possible under `WNOHANG`),
the call was interrupted (rc < 0, errno == EINTR), or it failed for any
other reason (rc < 0, other errno). -/
inductive WaitRes where
  | exited (status : Int)
  | running
  | eintr
  | werr
deriving DecidableEq, Repr

/-- Observable side effects of `run_one_script`, in program order:
`spawn` is the `fork()` call, `sleep1` the `sleep(1)` in the poll loop,
`killTimeout` the `killpg` on budget exhaustion, `reap` a successful
`waitpid` (rc > 0), `killSweep` the `killpg` issued after an observed
exit, `logWaitErr` the `error("waidpid: %m")` call. -/
inductive Act where
  | spawn (path : String)
  | sleep1
  | killTimeout
  | reap
  | killSweep
  | logWaitErr
deriving DecidableEq, Repr

/-- Result of a run: the C function returned the `int` value `v`, or the
supplied wait-outcome trace was exhausted with the loop still running
(the C loop has not returned). -/
inductive RunRes where
  | ret (v : Int)
  | hung
deriving DecidableEq, Repr

/-- The `while (1)` supervision loop of `run_one_script`, lines 114-131:

    rc = waitpid(cpid, &status, opt);
    if (rc < 0) { if (errno == EINTR) continue;
                  error("waidpid: %m"); return 0; }
    else if (rc == 0) { sleep(1);
                        if ((--max_wait) == 0) { killpg(cpid, SIGKILL); opt = 0; } }
    else { killpg(cpid, SIGKILL); return status; }

`nohang` is the current value of `opt` (`true` = `WNOHANG`); the loop body
itself never reads it, it only selects which outcomes the OS can produce
(see `validFrom`). -/
def supervise (max_wait : Int) (nohang : Bool) : List WaitRes → List Act × RunRes
  | [] => ([], .hung)
  | .eintr :: rest => supervise max_wait nohang rest
  | .werr :: _ => ([.logWaitErr], .ret 0)
  | .running :: rest =>
      if max_wait - 1 = 0 then
        let p := supervise (max_wait - 1) false rest
        (.sleep1 :: .killTimeout :: p.1, p.2)
      else
        let p := supervise (max_wait - 1) nohang rest
        (.sleep1 :: p.1, p.2)
  | .exited status :: _ => ([.reap, .killSweep], .ret status)

/-- A wait-outcome trace the OS can actually produce: `waitpid` returns 0
(`running`) only while `opt == WNOHANG`; the loop switches `opt` to a
blocking wait when the budget hits zero, exactly as `supervise` does. -/
def validFrom (max_wait : Int) (nohang : Bool) : List WaitRes → Bool
  | [] => true
  | .eintr :: rest => validFrom max_wait nohang rest
  | .werr :: _ => true
  | .exited _ :: _ => true
  | .running :: rest =>
      nohang && validFrom (max_wait - 1)
        (if max_wait - 1 = 0 then false else nohang) rest

/-- Initial `opt`: `if (max_wait < 0) opt = 0; else opt = WNOHANG;`
(lines 109-112). -/
def nohangInit (max_wait : Int) : Bool := if max_wait < 0 then false else true

/-- What the forked child does (lines 95-107): it always moves itself into
its own process group (`setpgrp`), then replaces its image with the script
(`execve`); if that fails it exits with status 127 and never falls through
into the parent's code. -/
inductive ChildEnd where
  | execs (path : String)
  | selfExit (code : Int)
deriving DecidableEq, Repr

structure ChildSpec where
  ownGroup : Bool
  outcome : ChildEnd
deriving DecidableEq, Repr

def childRun (path : String) (execOk : Bool) : ChildSpec :=
  { ownGroup := true
    outcome := if execOk then .execs path else .selfExit 127 }

/-- Raw wait status the parent observes for a child that called
`exit(code)`: `(code & 0xff) << 8`. -/
def waitStatusOfExit (code : Int) : Int := (code % 256) * 256

/-- `run_one_script(name, path, jobid, max_wait, env)` (lines 69-134).
`accessOk` is the outcome of `access(path, R_OK | X_OK)`, `forkOk` whether
`fork()` succeeded, `waits` the wait outcomes the OS produces for the
child. `name`, `jobid` and `env` only feed logging / the child's `execve`
and do not influence the control flow modelled here (`env` is asserted
non-null). -/
def run_one_script (path : Option String) (accessOk forkOk : Bool)
    (max_wait : Int) (waits : List WaitRes) : List Act × RunRes :=
  match path with
  | none => ([], .ret 0)
  | some p =>
    if p = "" then ([], .ret 0)
    else if !accessOk then ([], .ret (-1))
    else if !forkOk then ([.spawn p], .ret (-1))
    else
      let r := supervise max_wait (nohangInit max_wait) waits
      (.spawn p :: r.1, r.2)

/-- Outcome of the `glob(pattern, GLOB_ERR, _ef, &gl)` call in
`_script_list_create` (lines 158-180): success with the matched paths in
the glob engine's order, or one of the error codes the switch handles. -/
inductive GlobRes where
  | ok (paths : List String)
  | nomatch
  | nospace
  | aborted
  | unknown (code : Int)
deriving DecidableEq, Repr

/-- Modelled from the spec: `list_push` of `src/common/list.c` is not among
the sources; the spec requires only an ordered sequence with insertion
order preserved, iterated once front-to-back, so pushing appends at the
end of the modelled list. -/
def listPush (l : List String) (s : String) : List String := l ++ [s]

/-- `_script_list_create(pattern)` (lines 148-182): `NULL` pattern gives a
`NULL` list; on glob success each match is pushed in order; on
`GLOB_NOMATCH` and on every error code the list stays `NULL` (`none`). -/
def scriptListCreate (pattern : Option String) (g : GlobRes) :
    Option (List String) :=
  match pattern with
  | none => none
  | some _ =>
    match g with
    | .ok paths => some (paths.foldl listPush [])
    | .nomatch => none
    | .nospace => none
    | .aborted => none
    | .unknown _ => none

/-- The per-path behaviour of the operating system during one
`run_script` call. -/
structure OsEnv where
  accessOk : String → Bool
  forkOk : String → Bool
  waits : String → List WaitRes

/-- The call `run_one_script(name, s, jobid, max_wait, env)` made by
`run_script`'s iteration for the discovered path `s`. -/
def runOneIn (os : OsEnv) (max_wait : Int) (s : String) : List Act × RunRes :=
  run_one_script (some s) (os.accessOk s) (os.forkOk s) max_wait (os.waits s)

/-- The `while ((s = list_next(i)))` loop of `run_script` (lines 204-211):
runs each discovered path in order, breaking at the first non-zero result.
Returns the paths actually handed to `run_one_script`, the accumulated
side effects, and the final `rc` (`rc` starts out uninitialised in the C,
modelled by the explicit `rc` argument; the loop body overwrites it before
any read whenever the list is non-empty). -/
def runList (runOne : String → List Act × RunRes) (rc : Int) :
    List String → List String × (List Act × RunRes)
  | [] => ([], ([], .ret rc))
  | s :: rest =>
    let r := runOne s
    match r.2 with
    | .hung => ([s], (r.1, .hung))
    | .ret v =>
      if v = 0 then
        let q := runList runOne v rest
        (s :: q.1, (r.1 ++ q.2.1, q.2.2))
      else ([s], (r.1, .ret v))

/-- `run_script(name, pattern, jobid, max_wait, env)` (lines 184-215).
A `NULL`/empty pattern returns 0 at once; a `NULL` discovery list makes it
return `error("Unable to run ...")`, modelled from the spec and the file's
header comment as the failure code -1; otherwise the discovered paths are
run in order with the short-circuit loop. -/
def run_script (os : OsEnv) (pattern : Option String) (g : GlobRes)
    (max_wait rcInit : Int) : List String × (List Act × RunRes) :=
  match pattern with
  | none => ([], ([], .ret 0))
  | some p =>
    if p = "" then ([], ([], .ret 0))
    else
      match scriptListCreate (some p) g with
      | none => ([], ([], .ret (-1)))
      | some paths => runList (runOneIn os max_wait) rcInit paths

/-- An `OsEnv` in which nothing is accessible; used for concrete
instantiations where the per-path behaviour is irrelevant. -/
def osNull : OsEnv :=
  { accessOk := fun _ => false
    forkOk := fun _ => false
    waits := fun _ => [] }

/-! ## Helper lemmas -/

/-- Pushing the glob matches one by one keeps them in glob order. -/
theorem foldl_listPush (paths : List String) :
    ∀ (acc : List String), paths.foldl listPush acc = acc ++ paths := by
  induction paths with
  | nil => intro acc; simp
  | cons s rest ih => intro acc; simp [List.foldl_cons, listPush, ih]

/-- With a non-positive budget the poll loop never escalates: the
pre-decremented counter is negative from the first iteration on and the
`(--max_wait) == 0` test never fires, for any number of polls. -/
theorem supervise_nonpos (n : Nat) : ∀ (mw : Int), mw ≤ 0 →
    supervise mw true (List.replicate n WaitRes.running) =
      (List.replicate n Act.sleep1, RunRes.hung) ∧
    validFrom mw true (List.replicate n WaitRes.running) = true := by
  induction n with
  | zero => intro mw _; exact ⟨rfl, rfl⟩
  | succ k ih =>
    intro mw hmw
    have h1 : mw - 1 ≤ 0 := by omega
    have h2 : ¬(mw - 1 = 0) := by omega
    have h3 := ih (mw - 1) h1
    simp [List.replicate_succ, supervise, validFrom, h2, h3.1, h3.2]

/-- One-step unfolding of the iteration loop on a non-empty list. -/
theorem runList_cons (f : String → List Act × RunRes) (a : String)
    (rest : List String) (rc : Int) :
    runList f rc (a :: rest) =
      match (f a).2 with
      | RunRes.hung => ([a], ((f a).1, RunRes.hung))
      | RunRes.ret v =>
        if v = 0 then
          (a :: (runList f v rest).1,
            ((f a).1 ++ (runList f v rest).2.1, (runList f v rest).2.2))
        else ([a], ((f a).1, RunRes.ret v)) := rfl

/-- Whatever the per-script results, the paths handed to `run_one_script`
by the iteration loop are an initial segment of the discovered list, in
its order: no reordering, no skipping. -/
theorem runList_initial_segment (f : String → List Act × RunRes) :
    ∀ (rc : Int) (paths : List String),
    ∃ (k : Nat), (runList f rc paths).1 = paths.take k := by
  intro rc paths
  induction paths generalizing rc with
  | nil => exact ⟨0, rfl⟩
  | cons s rest ih =>
    rcases hr : (f s).2 with v | _
    · by_cases hv : v = 0
      · subst hv
        obtain ⟨k, hk⟩ := ih 0
        refine ⟨k + 1, ?_⟩
        rw [runList_cons, hr]
        simp [hk]
      · refine ⟨1, ?_⟩
        rw [runList_cons, hr]
        simp [hv]
    · refine ⟨1, ?_⟩
      rw [runList_cons, hr]
      simp

/-- The iteration stops at the first non-zero result: with `pre` all
succeeding and `sk` failing with `v ≠ 0`, exactly `pre ++ [sk]` is run and
`sk`'s raw status is the loop's result, whatever comes after. -/
theorem runList_first_nonzero (f : String → List Act × RunRes) (sk : String)
    (post : List String) (v : Int) (hv : v ≠ 0)
    (hsk : (f sk).2 = RunRes.ret v) :
    ∀ (pre : List String) (rc : Int),
    (∀ s ∈ pre, (f s).2 = RunRes.ret 0) →
    (runList f rc (pre ++ sk :: post)).1 = pre ++ [sk] ∧
    (runList f rc (pre ++ sk :: post)).2.2 = RunRes.ret v := by
  intro pre
  induction pre with
  | nil =>
    intro rc _
    simp [runList, hsk, hv]
  | cons a rest ih =>
    intro rc hpre
    have ha : (f a).2 = RunRes.ret 0 := hpre a (List.mem_cons_self a rest)
    have h6 := ih 0 (fun s hs => hpre s (List.mem_cons_of_mem a hs))
    simp [runList, ha, h6.1, h6.2]

/-- If every script of a non-empty batch returns 0, the loop ends with
`rc = 0` regardless of the initial (uninitialised) `rc`. -/
theorem runList_all_zero (f : String → List Act × RunRes) :
    ∀ (paths : List String) (rc : Int), paths ≠ [] →
    (∀ s ∈ paths, (f s).2 = RunRes.ret 0) →
    (runList f rc paths).2.2 = RunRes.ret 0 := by
  intro paths
  induction paths with
  | nil => intro rc h _; exact absurd rfl h
  | cons a rest ih =>
    intro rc _ hall
    have ha : (f a).2 = RunRes.ret 0 := hall a (List.mem_cons_self a rest)
    have hstep : (runList f rc (a :: rest)).2.2 = (runList f 0 rest).2.2 := by
      rw [runList_cons, ha]
      simp
    rcases rest with _ | ⟨b, rest2⟩
    · rw [hstep]; rfl
    · rw [hstep]
      exact ih 0 (by simp) (fun s hs => hall s (List.mem_cons_of_mem a hs))

/-- The loop only returns after a successful reap when no wait error
occurs: a returned result on a trace without `werr` implies a `reap`
effect was recorded. -/
theorem supervise_ret_means_reap (tr : List WaitRes) :
    ∀ (mw : Int) (nohang : Bool),
    (supervise mw nohang tr).2 ≠ RunRes.hung →
    WaitRes.werr ∉ tr →
    Act.reap ∈ (supervise mw nohang tr).1 := by
  induction tr with
  | nil => intro mw nohang h _; exact absurd rfl h
  | cons e rest ih =>
    intro mw nohang h hw
    have hwr : WaitRes.werr ∉ rest := fun hx => hw (List.mem_cons_of_mem e hx)
    cases e with
    | eintr => exact ih mw nohang h hwr
    | werr => exact absurd (List.mem_cons_self WaitRes.werr rest) hw
    | exited s => simp [supervise]
    | running =>
      by_cases hm : mw - 1 = 0
      · have h8 : (supervise (mw - 1) false rest).2 ≠ RunRes.hung := by
          simpa [supervise, hm] using h
        have := ih (mw - 1) false h8 hwr
        rw [hm] at this
        simp [supervise, hm, this]
      · have h8 : (supervise (mw - 1) nohang rest).2 ≠ RunRes.hung := by
          simpa [supervise, hm] using h
        have := ih (mw - 1) nohang h8 hwr
        simp [supervise, hm, this]

/-- With a positive budget `n` and a child that is still running at every
poll, the loop polls exactly `n` times, escalates exactly once, switches
to the blocking wait and returns the reap status. -/
theorem supervise_overrun (s : Int) :
    ∀ (n : Nat), 1 ≤ n →
    supervise (n : Int) true
        (List.replicate n WaitRes.running ++ [WaitRes.exited s]) =
      (List.replicate n Act.sleep1 ++
        [Act.killTimeout, Act.reap, Act.killSweep], RunRes.ret s) := by
  intro n
  induction n with
  | zero => intro h; exact absurd h (by decide)
  | succ k ih =>
    intro _
    rcases Nat.eq_zero_or_pos k with hk | hk
    · subst hk
      norm_num [supervise, List.replicate_succ]
    · have h3 := ih hk
      have h2 : ¬(((k + 1 : Nat) : Int) - 1 = 0) := by push_cast; omega
      have h4 : ((k + 1 : Nat) : Int) - 1 = (k : Int) := by push_cast; ring
      have h5 : supervise ((k + 1 : Nat) : Int) true
          (WaitRes.running ::
            (List.replicate k WaitRes.running ++ [WaitRes.exited s])) =
          (Act.sleep1 :: (supervise (((k + 1 : Nat) : Int) - 1) true
            (List.replicate k WaitRes.running ++ [WaitRes.exited s])).1,
           (supervise (((k + 1 : Nat) : Int) - 1) true
            (List.replicate k WaitRes.running ++ [WaitRes.exited s])).2) := by
        simp only [supervise]
        rw [if_neg h2]
      rw [List.replicate_succ, List.cons_append, h5, h4, h3]
      simp [List.replicate_succ]

end RunScript

namespace RunScript

/-- On a non-empty pattern and a successful glob, `run_script` is exactly
the iteration loop over the matches in glob order. -/
theorem run_script_ok (os : OsEnv) (p : String) (hp : p ≠ "")
    (paths : List String) (mw rc : Int) :
    run_script os (some p) (GlobRes.ok paths) mw rc =
      runList (runOneIn os mw) rc paths := by
  simp [run_script, hp, scriptListCreate, foldl_listPush]

/-! ## Claims C1 - C5 -/

/-- C1 counterexample: for the non-null, non-empty pattern "p" with zero
glob matches (`GLOB_NOMATCH`), `run_script` returns -1 — the same value as
a discovery failure — not the success 0 the claim states. -/
theorem C1_counterexample :
    (run_script osNull (some "p") GlobRes.nomatch 10 0).2.2 =
      RunRes.ret (-1) ∧
    RunRes.ret (-1) ≠ RunRes.ret 0 := by decide

/-- C1 (amended): for every non-null, non-empty pattern with zero glob
matches, `run_script` returns the failure code -1 (`_script_list_create`
leaves the list `NULL` on `GLOB_NOMATCH`, so `run_script` takes the
`error("Unable to run ...")` path), invoking no script and recording no
effect — in particular no process-creation primitive is invoked. -/
theorem C1_nomatch_error_no_spawn (os : OsEnv) (p : String) (mw rc : Int)
    (hp : p ≠ "") :
    run_script os (some p) GlobRes.nomatch mw rc =
      ([], ([], RunRes.ret (-1))) := by
  simp [run_script, scriptListCreate, hp]

/-- Witness for the amended C1 at a concrete pattern. -/
theorem C1_witness :
    run_script osNull (some "x") GlobRes.nomatch 3 7 =
      ([], ([], RunRes.ret (-1))) :=
  C1_nomatch_error_no_spawn osNull "x" 3 7 (by decide)

/-- C2: discovery hands the glob matches through in the glob engine's own
order (`list_push` modelled from the spec as insertion-order preserving),
and the scripts `run_script` actually runs are an initial segment
`paths.take k` of that sequence — executed in exactly that order, with no
further reordering. -/
theorem C2_order_preserved (os : OsEnv) (mw rc : Int) (p : String)
    (paths : List String) (hp : p ≠ "") :
    scriptListCreate (some p) (GlobRes.ok paths) = some paths ∧
    ∃ (k : Nat),
      (run_script os (some p) (GlobRes.ok paths) mw rc).1 = paths.take k := by
  constructor
  · simp [scriptListCreate, foldl_listPush]
  · have h := runList_initial_segment (runOneIn os mw) rc paths
    simpa [run_script, hp, scriptListCreate, foldl_listPush] using h

/-- Witness for C2 at a concrete pattern and match list. -/
theorem C2_witness :
    scriptListCreate (some "x") (GlobRes.ok ["a", "b"]) = some ["a", "b"] ∧
    ∃ (k : Nat),
      (run_script osNull (some "x") (GlobRes.ok ["a", "b"]) 1 0).1 =
        (["a", "b"]).take k :=
  C2_order_preserved osNull 1 0 "x" ["a", "b"] (by decide)

/-- C3 counterexample: with `max_wait = 0` (which the claim includes) and
a child still running at each of three polls — a trace the OS can produce,
`validFrom` holds — the timeout kill is sent zero times, not exactly once:
the escalation never fires at budget 0. -/
theorem C3_counterexample :
    validFrom 0 (nohangInit 0)
      [WaitRes.running, WaitRes.running, WaitRes.running] = true ∧
    (run_one_script (some "s") true true 0
        [WaitRes.running, WaitRes.running, WaitRes.running]).1.count
      Act.killTimeout = 0 := by decide

/-- C3 (amended): for every positive `max_wait = n` and a child that is
still running at every poll, `run_one_script` polls exactly `n` one-second
rounds, sends the process-group timeout kill exactly once, switches to the
blocking wait and does not return until the child is reaped, returning the
reap status (with `max_wait = 0` the escalation never fires, see C10). -/
theorem C3_timeout_escalation (p : String) (s : Int) (n : Nat)
    (hp : p ≠ "") (hn : 1 ≤ n) :
    run_one_script (some p) true true (n : Int)
        (List.replicate n WaitRes.running ++ [WaitRes.exited s]) =
      (Act.spawn p :: (List.replicate n Act.sleep1 ++
        [Act.killTimeout, Act.reap, Act.killSweep]), RunRes.ret s) ∧
    (run_one_script (some p) true true (n : Int)
        (List.replicate n WaitRes.running ++ [WaitRes.exited s])).1.count
      Act.killTimeout = 1 := by
  have h0 : ¬((n : Int) < 0) := by omega
  have h1 : run_one_script (some p) true true (n : Int)
      (List.replicate n WaitRes.running ++ [WaitRes.exited s]) =
      (Act.spawn p :: (List.replicate n Act.sleep1 ++
        [Act.killTimeout, Act.reap, Act.killSweep]), RunRes.ret s) := by
    simp [run_one_script, hp, nohangInit, h0, supervise_overrun s n hn]
  refine ⟨h1, ?_⟩
  rw [h1]
  simp [List.count_cons, List.count_append, List.count_replicate]

/-- Witness for the amended C3 at budget 2 and a clean final exit. -/
theorem C3_witness :
    run_one_script (some "x") true true ((2 : Nat) : Int)
        (List.replicate 2 WaitRes.running ++ [WaitRes.exited 0]) =
      (Act.spawn "x" :: (List.replicate 2 Act.sleep1 ++
        [Act.killTimeout, Act.reap, Act.killSweep]), RunRes.ret 0) ∧
    (run_one_script (some "x") true true ((2 : Nat) : Int)
        (List.replicate 2 WaitRes.running ++ [WaitRes.exited 0])).1.count
      Act.killTimeout = 1 :=
  C3_timeout_escalation "x" 0 2 (by decide) (by decide)

/-- C4: in `run_script`'s iteration over the discovered batch, the first
script whose `run_one_script` result is non-zero stops the loop — exactly
the preceding scripts and that one are invoked, its raw status is
returned, and nothing after it runs; if every script of the (non-empty)
batch returns 0, `run_script` returns 0. -/
theorem C4_short_circuit (os : OsEnv) (mw rc : Int) (p : String)
    (hp : p ≠ "") :
    (∀ (pre : List String) (sk : String) (post : List String) (v : Int),
      (∀ s ∈ pre, (runOneIn os mw s).2 = RunRes.ret 0) →
      (runOneIn os mw sk).2 = RunRes.ret v → v ≠ 0 →
      (run_script os (some p) (GlobRes.ok (pre ++ sk :: post)) mw rc).1 =
        pre ++ [sk] ∧
      (run_script os (some p) (GlobRes.ok (pre ++ sk :: post)) mw rc).2.2 =
        RunRes.ret v) ∧
    (∀ (paths : List String), paths ≠ [] →
      (∀ s ∈ paths, (runOneIn os mw s).2 = RunRes.ret 0) →
      (run_script os (some p) (GlobRes.ok paths) mw rc).2.2 =
        RunRes.ret 0) := by
  constructor
  · intro pre sk post v hpre hsk hv
    have h := runList_first_nonzero (runOneIn os mw) sk post v hv hsk pre rc hpre
    rw [run_script_ok os p hp (pre ++ sk :: post) mw rc]
    exact h
  · intro paths hne hall
    have h := runList_all_zero (runOneIn os mw) paths rc hne hall
    rw [run_script_ok os p hp paths mw rc]
    exact h

/-- Environment for the C4 witness: path "b" fails its access check
(`run_one_script` returns -1 there), every other path runs and exits 0. -/
def osC4 : OsEnv :=
  { accessOk := fun s => s != "b"
    forkOk := fun _ => true
    waits := fun _ => [WaitRes.exited 0] }

/-- Witness for C4: in the batch ["a", "b", "c"], script "b" is the first
non-zero result; only ["a", "b"] are invoked and its status -1 is
returned. -/
theorem C4_witness :
    (run_script osC4 (some "x") (GlobRes.ok (["a"] ++ "b" :: ["c"])) 5 0).1 =
      ["a"] ++ ["b"] ∧
    (run_script osC4 (some "x")
        (GlobRes.ok (["a"] ++ "b" :: ["c"])) 5 0).2.2 = RunRes.ret (-1) :=
  (C4_short_circuit osC4 5 0 "x" (by decide)).1 ["a"] "b" ["c"] (-1)
    (by decide) (by decide) (by decide)

/-- C5 counterexample: on the wait-error path a child was created
(`spawn` recorded) and `run_one_script` returns (value 0), yet no reap
ever happened — the claim's "every exit path" fails on the `waitpid`
failure path. -/
theorem C5_counterexample :
    (run_one_script (some "s") true true 5 [WaitRes.werr]).2 =
      RunRes.ret 0 ∧
    Act.spawn "s" ∈ (run_one_script (some "s") true true 5 [WaitRes.werr]).1 ∧
    Act.reap ∉ (run_one_script (some "s") true true 5 [WaitRes.werr]).1 := by
  decide

/-- C5 (amended): every child `run_one_script` creates is reaped before
the function returns on every exit path — timeout path included — except
the path where `waitpid` itself fails with a non-`EINTR` error: whenever
the function returns on a trace without such a wait error, a reap was
recorded. -/
theorem C5_reap_before_return (p : String) (mw : Int) (tr : List WaitRes)
    (hp : p ≠ "")
    (hret : (run_one_script (some p) true true mw tr).2 ≠ RunRes.hung)
    (hw : WaitRes.werr ∉ tr) :
    Act.reap ∈ (run_one_script (some p) true true mw tr).1 := by
  have h1 : (supervise mw (nohangInit mw) tr).2 ≠ RunRes.hung := by
    simpa [run_one_script, hp] using hret
  have h2 := supervise_ret_means_reap tr mw (nohangInit mw) h1 hw
  simp [run_one_script, hp, h2]

/-- Witness for the amended C5: a child that exits at once is reaped. -/
theorem C5_witness :
    Act.reap ∈ (run_one_script (some "x") true true 1 [WaitRes.exited 3]).1 :=
  C5_reap_before_return "x" 1 [WaitRes.exited 3] (by decide) (by decide)
    (by decide)

/-! ## Claims C6 - C10 -/

/-- C6: in the supervision loop an interrupted wait (`EINTR`) is retried
transparently (the loop state is unchanged and no effect is recorded),
while any other wait failure is logged and the call returns the
success-shaped value 0 rather than the -1 sentinel or an error. -/
theorem C6_wait_error_handling (mw : Int) (nohang : Bool) (rest : List WaitRes) :
    supervise mw nohang (WaitRes.eintr :: rest) = supervise mw nohang rest ∧
    supervise mw nohang (WaitRes.werr :: rest) =
      ([Act.logWaitErr], RunRes.ret 0) ∧
    (supervise mw nohang (WaitRes.werr :: rest)).2 ≠ RunRes.ret (-1) := by
  refine ⟨rfl, rfl, ?_⟩
  simp [supervise]

/-- C7: whenever the supervision loop observes that the child has exited
(after any run of polls and interrupted waits, in non-blocking or blocking
mode), it sends the process-group kill and returns the observed status —
unconditionally, for every exit status `s`, including a clean `s = 0`. -/
theorem C7_sweep_kill_on_exit (pre : List WaitRes)
    (hpre : ∀ e ∈ pre, e = WaitRes.running ∨ e = WaitRes.eintr) :
    ∀ (mw : Int) (nohang : Bool) (s : Int),
    (supervise mw nohang (pre ++ [WaitRes.exited s])).2 = RunRes.ret s ∧
    Act.killSweep ∈ (supervise mw nohang (pre ++ [WaitRes.exited s])).1 := by
  induction pre with
  | nil => intro mw nohang s; exact ⟨rfl, by simp [supervise]⟩
  | cons e rest ih =>
    intro mw nohang s
    have hrest : ∀ x ∈ rest, x = WaitRes.running ∨ x = WaitRes.eintr :=
      fun x hx => hpre x (List.mem_cons_of_mem e hx)
    rcases hpre e (List.mem_cons_self e rest) with h | h <;> subst h
    · by_cases hm : mw - 1 = 0
      · have h4 := ih hrest (mw - 1) false s
        rw [hm] at h4
        simp [supervise, hm, h4.1, h4.2]
      · have h4 := ih hrest (mw - 1) nohang s
        simp [supervise, hm, h4.1, h4.2]
    · simpa [supervise] using ih hrest mw nohang s

/-- Witness for C7 at a concrete run: one poll, then a clean exit. -/
theorem C7_witness :
    (supervise 5 true ([WaitRes.running] ++ [WaitRes.exited 0])).2 =
      RunRes.ret 0 ∧
    Act.killSweep ∈
      (supervise 5 true ([WaitRes.running] ++ [WaitRes.exited 0])).1 :=
  C7_sweep_kill_on_exit [WaitRes.running] (by decide) 5 true 0

/-- C8: a null or empty pattern makes `run_script` return 0 immediately
(whatever the glob engine or per-script behaviour would be), and a null or
empty path makes `run_one_script` return 0 immediately (whatever the
access check, fork or waits would give): no discovery, no access check, no
spawning. -/
theorem C8_noop_success (os : OsEnv) (g : GlobRes) (mw rc : Int)
    (accessOk forkOk : Bool) (tr : List WaitRes) :
    run_script os none g mw rc = ([], ([], RunRes.ret 0)) ∧
    run_script os (some "") g mw rc = ([], ([], RunRes.ret 0)) ∧
    run_one_script none accessOk forkOk mw tr = ([], RunRes.ret 0) ∧
    run_one_script (some "") accessOk forkOk mw tr = ([], RunRes.ret 0) := by
  refine ⟨rfl, ?_, rfl, ?_⟩ <;> simp [run_script, run_one_script]

/-- C9: when `execve` fails the child exits with the distinguished status
127 (never falling through into the caller's code path), and the parent
observes this as an ordinary non-zero raw wait status (`127 << 8 = 32512`)
through the normal supervision loop. -/
theorem C9_exec_fail_127 (p : String) (mw : Int) (nohang : Bool) :
    childRun p false =
      { ownGroup := true, outcome := ChildEnd.selfExit 127 } ∧
    (childRun p false).outcome ≠ ChildEnd.execs p ∧
    waitStatusOfExit 127 = 32512 ∧
    supervise mw nohang [WaitRes.exited (waitStatusOfExit 127)] =
      ([Act.reap, Act.killSweep], RunRes.ret 32512) ∧
    (32512 : Int) ≠ 0 := by
  refine ⟨rfl, by simp [childRun], by decide, ?_, by decide⟩
  norm_num [supervise, waitStatusOfExit]

/-- C10: with `max_wait = 0` the poll mode (`WNOHANG`) is selected, the
pre-decrement makes the counter -1 on the first iteration, and the
`(--max_wait) == 0` escalation never fires: for any number of polls of a
child that does not exit the trace stays valid, no timeout kill is ever
sent, and the loop is still running — supervision is unbounded. -/
theorem C10_zero_budget_never_escalates (n : Nat) :
    nohangInit 0 = true ∧
    validFrom 0 (nohangInit 0) (List.replicate n WaitRes.running) = true ∧
    supervise 0 (nohangInit 0) (List.replicate n WaitRes.running) =
      (List.replicate n Act.sleep1, RunRes.hung) ∧
    Act.killTimeout ∉
      (supervise 0 (nohangInit 0) (List.replicate n WaitRes.running)).1 := by
  have h := supervise_nonpos n 0 (le_refl 0)
  refine ⟨rfl, ?_, ?_, ?_⟩
  · simpa [nohangInit] using h.2
  · simpa [nohangInit] using h.1
  · have h5 : (supervise 0 (nohangInit 0) (List.replicate n WaitRes.running)).1 =
        List.replicate n Act.sleep1 := by simpa [nohangInit] using congrArg Prod.fst h.1
    rw [h5]
    simp [List.mem_replicate]

end RunScript
